import Mathlib

/-!
Shallow embedding of the forgezip archive engine
(`src/core/compression/engine.ts`) and workspace settings store
(`src/core/workspace/settings.ts`), together with models of the JavaScript
platform primitives those modules call (`String.prototype.trim`,
`String.prototype.split`, `Number`, `JSON.parse`, `JSON.stringify`,
`path.extname`).  Subprocess execution and the filesystem are modelled by
explicit oracles; the side effects an operation performs (existence checks,
directory creation, subprocess spawns) are recorded as an ordered event
trace.
-/

set_option maxRecDepth 65536

namespace ForgeZip

/-- Model of the set of characters `String.prototype.trim` removes
(ECMAScript WhiteSpace and LineTerminator). -/
def isJsSpace (c : Char) : Bool :=
  c.toNat == 0x20 || c.toNat == 0x09 || c.toNat == 0x0a || c.toNat == 0x0d ||
  c.toNat == 0x0b || c.toNat == 0x0c || c.toNat == 0xa0 || c.toNat == 0xfeff ||
  c.toNat == 0x1680 || (0x2000 ≤ c.toNat && c.toNat ≤ 0x200a) ||
  c.toNat == 0x2028 || c.toNat == 0x2029 || c.toNat == 0x202f ||
  c.toNat == 0x205f || c.toNat == 0x3000

/-- Characters of a string with leading and trailing JS whitespace removed. -/
def jsTrimChars (cs : List Char) : List Char :=
  ((cs.dropWhile isJsSpace).reverse.dropWhile isJsSpace).reverse

/-- Model of `String.prototype.trim`. -/
def jsTrim (s : String) : String :=
  ⟨jsTrimChars s.data⟩

/-- Model of `split(/\r?\n/)`: cut at each `\r\n` or lone `\n`. -/
def splitLinesChars (acc : List Char) : List Char → List String
  | [] => [⟨acc.reverse⟩]
  | '\r' :: '\n' :: rest => ⟨acc.reverse⟩ :: splitLinesChars [] rest
  | '\n' :: rest => ⟨acc.reverse⟩ :: splitLinesChars [] rest
  | c :: rest => splitLinesChars (c :: acc) rest

/-- Model of `split(/\r?\n/)` on a string. -/
def splitLines (s : String) : List String :=
  splitLinesChars [] s.data

/-- Model of `split(/\r?\n\r?\n/)`: cut at each blank-line boundary, with the
regex's leftmost-then-greedy alternative order. -/
def splitBlocksChars (acc : List Char) : List Char → List String
  | [] => [⟨acc.reverse⟩]
  | '\r' :: '\n' :: '\r' :: '\n' :: rest => ⟨acc.reverse⟩ :: splitBlocksChars [] rest
  | '\r' :: '\n' :: '\n' :: rest => ⟨acc.reverse⟩ :: splitBlocksChars [] rest
  | '\n' :: '\r' :: '\n' :: rest => ⟨acc.reverse⟩ :: splitBlocksChars [] rest
  | '\n' :: '\n' :: rest => ⟨acc.reverse⟩ :: splitBlocksChars [] rest
  | c :: rest => splitBlocksChars (c :: acc) rest

/-- Blocks of a raw listing, as produced by `raw.split(/\r?\n\r?\n/)`. -/
def splitBlocks (s : String) : List String :=
  splitBlocksChars [] s.data

/-- Model of `line.split(' = ')` followed by `rest.join(' = ')`: split the
line at the first occurrence of `" = "`; `none` when the separator does not
occur (then `rest.length === 0` in the source and the line is skipped). -/
def splitKeyValue (acc : List Char) : List Char → Option (List Char × List Char)
  | [] => none
  | ' ' :: '=' :: ' ' :: rest => some (acc.reverse, rest)
  | c :: rest => splitKeyValue (c :: acc) rest

/-- Build the per-block key/value map (`map.set(key.trim(), value.trim())`)
from the block's lines.  A later line with the same key overwrites an earlier
one, which `lookupLast` reflects. -/
def parsePairs (lines : List String) : List (String × String) :=
  lines.filterMap fun line =>
    match splitKeyValue [] line.data with
    | none => none
    | some (k, v) => if k = [] then none else some (⟨jsTrimChars k⟩, ⟨jsTrimChars v⟩)

/-- Model of `Map.get` for a map built by repeated `Map.set`: the last
binding of a key wins. -/
def lookupLast (pairs : List (String × String)) (key : String) : Option String :=
  pairs.foldl (fun acc p => if p.1 = key then some p.2 else acc) none

/-- A JavaScript number as produced by `Number(...)` on 7-Zip listing
values: NaN, the two infinities, or an exact rational (we idealise binary
floating point as exact rational arithmetic). -/
inductive JsNum where
  | nan
  | posInf
  | negInf
  | num (q : ℚ)
deriving DecidableEq, Repr

/-- JS truthiness of a number: `NaN` and `0` are falsy. -/
def jsTruthy : JsNum → Bool
  | .nan => false
  | .num q => decide (q ≠ 0)
  | _ => true

/-- Model of `x || 0` applied to a number. -/
def jsOrZero (x : JsNum) : JsNum :=
  if jsTruthy x then x else .num 0

/-- Numeric value of a decimal digit character. -/
def digitVal (c : Char) : Nat := c.toNat - '0'.toNat

/-- Base-10 value of a digit string. -/
def natOfDigits (cs : List Char) : Nat :=
  cs.foldl (fun n c => 10 * n + digitVal c) 0

/-- Hexadecimal digit test. -/
def isHexDigitChar (c : Char) : Bool :=
  c.isDigit || ('a' ≤ c && c ≤ 'f') || ('A' ≤ c && c ≤ 'F')

/-- Numeric value of a hexadecimal digit character. -/
def hexDigitVal (c : Char) : Nat :=
  if c.isDigit then c.toNat - '0'.toNat
  else if 'a' ≤ c && c ≤ 'f' then c.toNat - 'a'.toNat + 10
  else c.toNat - 'A'.toNat + 10

/-- Value of a digit string in a given base. -/
def natOfBase (base : Nat) (val : Char → Nat) (cs : List Char) : Nat :=
  cs.foldl (fun n c => base * n + val c) 0

/-- Radix-prefixed integer literal accepted by `Number` (`0x`, `0o`, `0b`),
given the characters after the two-character prefix, the digit predicate and
the base. -/
def jsRadixDigits (digitOk : Char → Bool) (base : Nat) (val : Char → Nat)
    (rest : List Char) : JsNum :=
  if rest ≠ [] ∧ rest.all digitOk then .num (natOfBase base val rest) else .nan

/-- The radix-literal cases of `Number`: `none` when the input does not start
with a radix prefix. -/
def jsRadixParse (cs : List Char) : Option JsNum :=
  if cs.take 2 = ['0', 'x'] ∨ cs.take 2 = ['0', 'X'] then
    some (jsRadixDigits isHexDigitChar 16 hexDigitVal (cs.drop 2))
  else if cs.take 2 = ['0', 'o'] ∨ cs.take 2 = ['0', 'O'] then
    some (jsRadixDigits (fun c => '0' ≤ c && c ≤ '7') 8 digitVal (cs.drop 2))
  else if cs.take 2 = ['0', 'b'] ∨ cs.take 2 = ['0', 'B'] then
    some (jsRadixDigits (fun c => c == '0' || c == '1') 2 digitVal (cs.drop 2))
  else none

/-- Mantissa of a decimal literal: digits, optionally a point and more
digits; at least one digit overall.  Returns the value and the unconsumed
remainder. -/
def parseDecMantissa (cs : List Char) : Option (ℚ × List Char) :=
  let intPart := cs.takeWhile Char.isDigit
  let rest1 := cs.dropWhile Char.isDigit
  if rest1.take 1 = ['.'] then
    let rest2 := rest1.drop 1
    let fracPart := rest2.takeWhile Char.isDigit
    let rest3 := rest2.dropWhile Char.isDigit
    if intPart = [] ∧ fracPart = [] then none
    else some ((natOfDigits intPart : ℚ) + (natOfDigits fracPart : ℚ) / (10 : ℚ) ^ fracPart.length, rest3)
  else if intPart = [] then none
  else some ((natOfDigits intPart : ℚ), rest1)

/-- Optional exponent part following a decimal mantissa; the whole remainder
must be consumed. -/
def parseExponent (m : ℚ) (rest : List Char) : Option ℚ :=
  if rest = [] then some m
  else if rest.take 1 = ['e'] ∨ rest.take 1 = ['E'] then
    let r := rest.drop 1
    let sr : ℤ × List Char :=
      if r.take 1 = ['+'] then (1, r.drop 1)
      else if r.take 1 = ['-'] then (-1, r.drop 1)
      else (1, r)
    if sr.2 ≠ [] ∧ sr.2.all Char.isDigit then
      some (m * (10 : ℚ) ^ (sr.1 * (natOfDigits sr.2 : ℤ)))
    else none
  else none

/-- An unsigned decimal literal as accepted by `Number` (must consume the
whole input). -/
def parseDecimal (cs : List Char) : Option ℚ :=
  match parseDecMantissa cs with
  | none => none
  | some (m, rest) => parseExponent m rest

/-- Unsigned part of a `Number` string after an optional sign: `Infinity` or
a decimal literal; anything else is NaN. -/
def jsUnsignedDecimal (cs : List Char) (negative : Bool) : JsNum :=
  if cs = ['I', 'n', 'f', 'i', 'n', 'i', 't', 'y'] then
    if negative then .negInf else .posInf
  else
    match parseDecimal cs with
    | none => .nan
    | some q => .num (if negative then -q else q)

/-- Optionally signed decimal / Infinity part of a `Number` string. -/
def jsSignedDecimal (cs : List Char) : JsNum :=
  if cs.take 1 = ['+'] then jsUnsignedDecimal (cs.drop 1) false
  else if cs.take 1 = ['-'] then jsUnsignedDecimal (cs.drop 1) true
  else jsUnsignedDecimal cs false

/-- Model of the `Number(string)` coercion: trim, empty string is `0`, radix
literals (`0x` / `0o` / `0b`), otherwise an optionally signed decimal literal
or `Infinity`; any other shape is NaN. -/
def jsStringToNumber (s : String) : JsNum :=
  let cs := jsTrimChars s.data
  if cs = [] then .num 0
  else
    match jsRadixParse cs with
    | some r => r
    | none => jsSignedDecimal cs

/-- Model of `Number(map.get(key))`: `Number(undefined)` is NaN. -/
def jsNumberOfField : Option String → JsNum
  | none => .nan
  | some s => jsStringToNumber s

/-- Model of `String.prototype.includes` for a single character. -/
def strContains (s : String) (c : Char) : Bool :=
  s.data.contains c

/-- The closed format enumeration of `@shared/archive`. -/
inductive CompressionFormat where
  | sevenZ
  | zip
  | tar
deriving DecidableEq, Repr

/-- Command-line name of a format (the `'7z' | 'zip' | 'tar'` literals). -/
def formatName : CompressionFormat → String
  | .sevenZ => "7z"
  | .zip => "zip"
  | .tar => "tar"

/-- Source `DEFAULT_FORMAT` from the engine. -/
def DEFAULT_FORMAT : CompressionFormat := .sevenZ

/-- The final path component examined by `path.extname` (posix): trailing
slashes are skipped, then everything after the last remaining slash. -/
def basenameForExt (cs : List Char) : List Char :=
  ((cs.reverse.dropWhile (· == '/')).takeWhile (· != '/')).reverse

/-- Extension of a basename, following Node's `path.extname`: empty when
there is no dot, when the only dot is the leading character, or when the
component is exactly `".."`; otherwise from the last dot (inclusive) on. -/
def extnameOfBase (b : List Char) : List Char :=
  if b = ['.', '.'] then []
  else
    let revTail := b.reverse.takeWhile (· != '.')
    if revTail.length = b.length then []
    else if revTail.length = b.length - 1 then []
    else '.' :: revTail.reverse

/-- Model of `path.extname` (posix flavour). -/
def extname (p : String) : String :=
  ⟨extnameOfBase (basenameForExt p.data)⟩

/-- Model of `String.prototype.replace('.', '')`: remove the first dot. -/
def removeFirstDot : List Char → List Char
  | [] => []
  | '.' :: rest => rest
  | c :: rest => c :: removeFirstDot rest

/-- Model of `String.prototype.toLowerCase` restricted to ASCII letters (the
extensions compared against are ASCII; no non-ASCII character lowercases to
any of them). -/
def toLowerChars (cs : List Char) : List Char :=
  cs.map fun c => if 'A' ≤ c && c ≤ 'Z' then Char.ofNat (c.toNat + 32) else c

/-- Source `path.extname(archivePath).replace('.', '').toLowerCase()`. -/
def extCandidate (archivePath : String) : String :=
  ⟨toLowerChars (removeFirstDot (extname archivePath).data)⟩

/-- Source `formatFromArchivePath` from the engine. -/
def formatFromArchivePath (archivePath : String)
    (fallback : CompressionFormat := DEFAULT_FORMAT) : CompressionFormat :=
  let ext := extCandidate archivePath
  if ext = "zip" then .zip
  else if ext = "7z" then .sevenZ
  else if ext = "tar" then .tar
  else if ext = "gz" then .tar
  else if ext = "tgz" then .tar
  else fallback

/-- Source `ArchiveCommandResult` from `@shared/archive`. -/
structure ArchiveCommandResult where
  success : Bool
  message : String
  logs : List String
deriving DecidableEq, Repr

/-- The last `n` elements of a list (`Array.prototype.slice(-n)`), oldest
discarded first. -/
def lastN (n : Nat) (l : List α) : List α :=
  l.drop (l.length - n)

/-- Source `buildCommandResult` from the engine: the captured chunk sequences are
concatenated stdout-then-stderr, each chunk trimmed, empty chunks dropped,
and only the last 200 kept. -/
def buildCommandResult (success : Bool) (message : String)
    (stdout stderr : List String) : ArchiveCommandResult :=
  { success := success
    message := message
    logs := lastN 200 (((stdout ++ stderr).map jsTrim).filter (fun l => l ≠ "")) }

/-- Source `normalizeEntryPath` from the engine: strip leading `/` and `\`
(`replace(/^[/\\]+/, '')`). -/
def normalizeEntryPath (entry : String) : String :=
  ⟨entry.data.dropWhile (fun c => c == '/' || c == '\\')⟩

/-- Source `ArchiveEntry` from `@shared/archive`; the numeric fields carry the JS
number the engine computed. -/
structure ArchiveEntry where
  id : String
  path : String
  name : String
  size : JsNum
  compressedSize : JsNum
  modified : String
  isDirectory : Bool
deriving DecidableEq, Repr

/-- Model of `relativePath.split(/[/\\]/)`. -/
def splitSepsChars (acc : List Char) : List Char → List String
  | [] => [⟨acc.reverse⟩]
  | c :: rest =>
    if c == '/' || c == '\\' then ⟨acc.reverse⟩ :: splitSepsChars [] rest
    else splitSepsChars (c :: acc) rest

/-- Source `relativePath.split(/[/\\]/).filter(Boolean).pop() ?? relativePath`. -/
def entryName (relativePath : String) : String :=
  (((splitSepsChars [] relativePath.data).filter (fun s => s ≠ "")).getLast?).getD relativePath

/-- The entry built from one parsed block (the object literal inside the
`parseListOutput` loop). -/
def mkEntry (pairs : List (String × String)) (relativePath : String) : ArchiveEntry :=
  { id := relativePath
    path := relativePath
    name := entryName relativePath
    size := jsOrZero (jsNumberOfField (lookupLast pairs "Size"))
    compressedSize := jsOrZero (jsNumberOfField (lookupLast pairs "Packed Size"))
    modified := (lookupLast pairs "Modified").getD ""
    isDirectory := strContains ((lookupLast pairs "Folder").getD "") '+' }

/-- Key/value pairs of one block after trimming, as the loop builds them. -/
def blockPairs (block : String) : List (String × String) :=
  parsePairs (splitLines (jsTrim block))

/-- The `Path` value of a block's map, if any. -/
def blockPath (block : String) : Option String :=
  lookupLast (blockPairs block) "Path"

/-- One iteration of the `parseListOutput` loop: `none` when the block is
skipped (blank, no usable `Path`, or the archive's own preamble block). -/
def parseBlockEntry (archivePath block : String) : Option ArchiveEntry :=
  if jsTrim block = "" then none
  else
    match blockPath block with
    | none => none
    | some relativePath =>
      if relativePath = "" ∨ relativePath = archivePath then none
      else some (mkEntry (blockPairs block) relativePath)

/-- Source `parseListOutput` from the engine. -/
def parseListOutput (raw archivePath : String) : List ArchiveEntry :=
  (splitBlocks raw).filterMap (parseBlockEntry archivePath)

/-- The non-blank blocks of a listing (those the loop does not `continue`
past at the `!trimmed` check). -/
def nonEmptyBlocks (raw : String) : List String :=
  (splitBlocks raw).filter (fun b => jsTrim b ≠ "")

/-- Outcome of one subprocess run (`SevenZipResult` in the engine): exit
code and the captured stdout/stderr chunk sequences. -/
structure SevenZipResult where
  code : Int
  stdout : List String
  stderr : List String
deriving DecidableEq, Repr

/-- A side effect performed by an engine operation, in the order the source
performs them: an `fs.existsSync` check, a recursive `mkdir`, a `mkdtemp`,
or a subprocess spawn with its final argument vector. -/
inductive EngineEvent where
  | existsCheck (p : String)
  | mkdirRecursive (p : String)
  | makeTempDir
  | spawn (args : List String)
deriving DecidableEq, Repr

/-- The environment an engine call runs against: `path.resolve`,
`fs.existsSync`, the subprocess (keyed by its full argument vector), and the
fresh directory `mkdtemp` would return. -/
structure EngineCtx where
  resolve : String → String
  pathExists : String → Bool
  runner : List String → SevenZipResult
  tempDir : String

/-- Source `run7zip` from the engine: prepends the `-sccUTF-8` flag and spawns,
recording the spawn event. -/
def run7zip (ctx : EngineCtx) (args : List String) : SevenZipResult × List EngineEvent :=
  let finalArgs := "-sccUTF-8" :: args
  (ctx.runner finalArgs, [.spawn finalArgs])

/-- Source `stderr.join('').trim() || fallback`: the error message the engine
throws on a non-zero exit. -/
def stderrMessage (stderr : List String) (fallback : String) : String :=
  let joined := jsTrim (String.join stderr)
  if joined = "" then fallback else joined

/-- Source `ArchiveStats` from `@shared/archive`. -/
structure ArchiveStats where
  archivePath : String
  format : CompressionFormat
  entries : Nat
  totalSize : JsNum
  totalCompressedSize : JsNum
deriving DecidableEq, Repr

/-- Source `ArchiveListResult` from `@shared/archive`. -/
structure ArchiveListResult where
  stats : ArchiveStats
  entries : List ArchiveEntry
deriving DecidableEq, Repr

/-- JS `+` on numbers (needed for the `reduce` sums in the stats). -/
def jsAdd : JsNum → JsNum → JsNum
  | .nan, _ => .nan
  | _, .nan => .nan
  | .posInf, .negInf => .nan
  | .negInf, .posInf => .nan
  | .posInf, _ => .posInf
  | _, .posInf => .posInf
  | .negInf, _ => .negInf
  | _, .negInf => .negInf
  | .num a, .num b => .num (a + b)

/-- Source `AddToArchivePayload` from `@shared/archive`; `compressionLevel` is kept
as an integer (the engine only tests its truthiness and interpolates it). -/
structure AddToArchivePayload where
  archivePath : String
  files : List String
  format : Option CompressionFormat
  compressionLevel : Option Int
deriving DecidableEq, Repr

/-- Source `ExtractArchivePayload` from `@shared/archive`. -/
structure ExtractArchivePayload where
  archivePath : String
  destination : String
  entries : Option (List String)
  overwrite : Option Bool
deriving DecidableEq, Repr

/-- Source `DeleteEntriesPayload` from `@shared/archive`. -/
structure DeleteEntriesPayload where
  archivePath : String
  entries : List String
deriving DecidableEq, Repr

/-- Source `PreviewArchivePayload` from `@shared/archive`. -/
structure PreviewArchivePayload where
  archivePath : String
  entryPath : String
deriving DecidableEq, Repr

/-- Source `ArchivePreviewResult` from `@shared/archive`. -/
structure ArchivePreviewResult where
  success : Bool
  message : String
  logs : List String
  extractedPath : String
deriving DecidableEq, Repr

/-- Source `listArchiveEntries` from the engine.  A thrown `Error(msg)` is modelled
as `Except.error msg`; the second component is the ordered effect trace. -/
def listArchiveEntries (ctx : EngineCtx) (archivePath : String) :
    Except String ArchiveListResult × List EngineEvent :=
  let resolvedPath := ctx.resolve archivePath
  if ¬ ctx.pathExists resolvedPath then
    (.error ("Archive not found at " ++ resolvedPath), [.existsCheck resolvedPath])
  else
    let (r, ev) := run7zip ctx ["l", "-slt", "-ba", resolvedPath]
    let events := .existsCheck resolvedPath :: ev
    if r.code ≠ 0 then
      (.error (stderrMessage r.stderr "Unable to list archive contents"), events)
    else
      let entries := parseListOutput (String.join r.stdout) resolvedPath
      let stats : ArchiveStats :=
        { archivePath := resolvedPath
          format := formatFromArchivePath resolvedPath
          entries := entries.length
          totalSize := entries.foldl (fun sum e => jsAdd sum e.size) (.num 0)
          totalCompressedSize := entries.foldl (fun sum e => jsAdd sum e.compressedSize) (.num 0) }
      (.ok { stats := stats, entries := entries }, events)

/-- The argument vector `addFilesToArchive` builds (including the
`splice(1, 0, '-mx=...')` insertion for a truthy compression level). -/
def addArgs (payload : AddToArchivePayload) (targetPath : String)
    (files : List String) : List String :=
  let format := payload.format.getD (formatFromArchivePath targetPath)
  let args := ["a", "-t" ++ formatName format, "-y", targetPath] ++ files
  match payload.compressionLevel with
  | some level =>
    if level ≠ 0 then args.take 1 ++ ["-mx=" ++ toString level] ++ args.drop 1 else args
  | none => args

/-- Source `addFilesToArchive` from the engine. -/
def addFilesToArchive (ctx : EngineCtx) (payload : AddToArchivePayload) :
    Except String ArchiveCommandResult × List EngineEvent :=
  let targetPath := ctx.resolve payload.archivePath
  let files := payload.files.map ctx.resolve
  if files = [] then
    (.error "No files selected to add", [])
  else
    let (r, ev) := run7zip ctx (addArgs payload targetPath files)
    if r.code ≠ 0 then
      (.error (stderrMessage r.stderr "Unable to add files to archive"), ev)
    else
      (.ok (buildCommandResult true ("Added " ++ toString files.length ++ " item(s)")
        r.stdout r.stderr), ev)

/-- The argument vector `extractArchiveEntries` builds: entry paths are
appended only when `payload.entries?.length` is truthy. -/
def extractArgs (payload : ExtractArchivePayload)
    (archivePath destination : String) : List String :=
  let base := ["x", archivePath, "-o" ++ destination, "-y"]
  match payload.entries with
  | some es => if es.length ≠ 0 then base ++ es.map normalizeEntryPath else base
  | none => base

/-- The success label of `extractArchiveEntries`, also keyed on the
truthiness of `payload.entries?.length`. -/
def extractLabel (payload : ExtractArchivePayload) : String :=
  match payload.entries with
  | some es =>
    if es.length ≠ 0 then "Extracted " ++ toString es.length ++ " item(s)"
    else "Extracted entire archive"
  | none => "Extracted entire archive"

/-- Source `extractArchiveEntries` from the engine. -/
def extractArchiveEntries (ctx : EngineCtx) (payload : ExtractArchivePayload) :
    Except String ArchiveCommandResult × List EngineEvent :=
  let archivePath := ctx.resolve payload.archivePath
  if ¬ ctx.pathExists archivePath then
    (.error ("Archive not found at " ++ archivePath), [.existsCheck archivePath])
  else
    let destination := ctx.resolve payload.destination
    let (r, ev) := run7zip ctx (extractArgs payload archivePath destination)
    let events := [.existsCheck archivePath, .mkdirRecursive destination] ++ ev
    if r.code ≠ 0 then
      (.error (stderrMessage r.stderr "Unable to extract archive"), events)
    else
      (.ok (buildCommandResult true (extractLabel payload ++ " to " ++ destination)
        r.stdout r.stderr), events)

/-- Source `deleteArchiveEntries` from the engine: note there is no
`fs.existsSync` check before the spawn. -/
def deleteArchiveEntries (ctx : EngineCtx) (payload : DeleteEntriesPayload) :
    Except String ArchiveCommandResult × List EngineEvent :=
  let archivePath := ctx.resolve payload.archivePath
  if payload.entries = [] then
    (.error "No entries selected for deletion", [])
  else
    let args := ["d", archivePath] ++ payload.entries.map normalizeEntryPath
    let (r, ev) := run7zip ctx args
    if r.code ≠ 0 then
      (.error (stderrMessage r.stderr "Unable to delete selected entries"), ev)
    else
      (.ok (buildCommandResult true
        ("Deleted " ++ toString payload.entries.length ++ " item(s)") r.stdout r.stderr), ev)

/-- Source `testArchiveIntegrity` from the engine: the success flag and message are
functions of the exit code alone; a non-zero exit is not an error. -/
def testArchiveIntegrity (ctx : EngineCtx) (archivePath : String) :
    Except String ArchiveCommandResult × List EngineEvent :=
  let resolvedPath := ctx.resolve archivePath
  if ¬ ctx.pathExists resolvedPath then
    (.error ("Archive not found at " ++ resolvedPath), [.existsCheck resolvedPath])
  else
    let (r, ev) := run7zip ctx ["t", resolvedPath]
    let success := r.code == 0
    let message :=
      if r.code == 0 then "Archive passed integrity test" else "Archive failed integrity test"
    (.ok (buildCommandResult success message r.stdout r.stderr),
      .existsCheck resolvedPath :: ev)

/-- Source `previewArchiveEntry` from the engine: a temporary directory is created
first (`mkdtemp`), then the subprocess is spawned; there is no existence
check.  `path.join(tempDir, entry)` is modelled as posix concatenation. -/
def previewArchiveEntry (ctx : EngineCtx) (payload : PreviewArchivePayload) :
    Except String ArchivePreviewResult × List EngineEvent :=
  let archivePath := ctx.resolve payload.archivePath
  let entry := normalizeEntryPath payload.entryPath
  let tempDir := ctx.tempDir
  let args := ["x", archivePath, entry, "-o" ++ tempDir, "-y"]
  let (r, ev) := run7zip ctx args
  let events := .makeTempDir :: ev
  if r.code ≠ 0 then
    (.error (stderrMessage r.stderr "Unable to extract preview"), events)
  else
    let base := buildCommandResult true ("Preview ready for " ++ entry) r.stdout r.stderr
    (.ok { success := base.success, message := base.message, logs := base.logs
           extractedPath := tempDir ++ "/" ++ entry }, events)

/-- A JSON value, as produced by `JSON.parse`.  Object members keep their
textual order; a duplicated key is resolved by `getField` taking the last
binding, matching `JSON.parse`. -/
inductive Json where
  | null
  | bool (b : Bool)
  | num (q : ℚ)
  | str (s : String)
  | arr (elems : List Json)
  | obj (members : List (String × Json))

/-- JSON insignificant whitespace. -/
def skipJsonWs (cs : List Char) : List Char :=
  cs.dropWhile fun c => c == ' ' || c == '\t' || c == '\n' || c == '\r'

/-- Exactly four hexadecimal digits (the `\uXXXX` escape). -/
def parseHex4 (cs : List Char) : Option (Nat × List Char) :=
  match cs with
  | a :: b :: c :: d :: rest =>
    if [a, b, c, d].all isHexDigitChar then
      some (natOfBase 16 hexDigitVal [a, b, c, d], rest)
    else none
  | _ => none

/-- Body of a JSON string after the opening quote: escapes are decoded and
raw control characters are rejected, as in `JSON.parse`. -/
def parseJsonString (fuel : Nat) (acc : List Char) (cs : List Char) :
    Option (String × List Char) :=
  match fuel with
  | 0 => none
  | fuel + 1 =>
    match cs with
    | [] => none
    | '"' :: rest => some (⟨acc.reverse⟩, rest)
    | '\\' :: esc :: rest =>
      match esc with
      | '"' => parseJsonString fuel ('"' :: acc) rest
      | '\\' => parseJsonString fuel ('\\' :: acc) rest
      | '/' => parseJsonString fuel ('/' :: acc) rest
      | 'b' => parseJsonString fuel ('\x08' :: acc) rest
      | 'f' => parseJsonString fuel ('\x0c' :: acc) rest
      | 'n' => parseJsonString fuel ('\n' :: acc) rest
      | 'r' => parseJsonString fuel ('\r' :: acc) rest
      | 't' => parseJsonString fuel ('\t' :: acc) rest
      | 'u' =>
        match parseHex4 rest with
        | none => none
        | some (n, rest2) => parseJsonString fuel (Char.ofNat n :: acc) rest2
      | _ => none
    | c :: rest =>
      if c.toNat < 0x20 then none else parseJsonString fuel (c :: acc) rest

/-- A JSON number literal: optional minus, `0` or a non-zero-led digit run,
optional fraction, optional exponent; returns the value and the remainder. -/
def parseJsonNumber (cs : List Char) : Option (ℚ × List Char) :=
  let neg := cs.take 1 = ['-']
  let cs1 := if neg then cs.drop 1 else cs
  let intRes : Option (List Char × List Char) :=
    match cs1 with
    | '0' :: rest => some (['0'], rest)
    | c :: rest =>
      if c.isDigit then some (c :: rest.takeWhile Char.isDigit, rest.dropWhile Char.isDigit)
      else none
    | [] => none
  match intRes with
  | none => none
  | some (ip, rest1) =>
    let fracRes : Option (List Char × List Char) :=
      if rest1.take 1 = ['.'] then
        let fd := (rest1.drop 1).takeWhile Char.isDigit
        if fd = [] then none else some (fd, (rest1.drop 1).dropWhile Char.isDigit)
      else some ([], rest1)
    match fracRes with
    | none => none
    | some (fd, rest2) =>
      let expRes : Option (ℤ × List Char) :=
        if rest2.take 1 = ['e'] ∨ rest2.take 1 = ['E'] then
          let r := rest2.drop 1
          let sr : ℤ × List Char :=
            if r.take 1 = ['+'] then (1, r.drop 1)
            else if r.take 1 = ['-'] then (-1, r.drop 1)
            else (1, r)
          let ed := sr.2.takeWhile Char.isDigit
          if ed = [] then none else some (sr.1 * (natOfDigits ed : ℤ), sr.2.dropWhile Char.isDigit)
        else some (0, rest2)
      match expRes with
      | none => none
      | some (ex, rest3) =>
        let mag : ℚ :=
          ((natOfDigits ip : ℚ) + (natOfDigits fd : ℚ) / (10 : ℚ) ^ fd.length) * (10 : ℚ) ^ ex
        some (if neg then -mag else mag, rest3)

/-- Match an exact literal (`true` / `false` / `null`). -/
def matchLit (lit : List Char) (cs : List Char) : Option (List Char) :=
  if cs.take lit.length = lit then some (cs.drop lit.length) else none

mutual

/-- One JSON value (leading whitespace allowed); the recursive-descent core
of the `JSON.parse` model, with fuel bounding the recursion depth. -/
def parseJsonValue : Nat → List Char → Option (Json × List Char)
  | 0, _ => none
  | fuel + 1, cs0 =>
    let cs := skipJsonWs cs0
    match cs with
    | '\x7b' :: rest => parseJsonObj fuel (skipJsonWs rest)
    | '[' :: rest => parseJsonArr fuel (skipJsonWs rest)
    | '"' :: rest =>
      match parseJsonString (rest.length + 1) [] rest with
      | none => none
      | some (s, r) => some (.str s, r)
    | 't' :: _ =>
      match matchLit ['t', 'r', 'u', 'e'] cs with
      | none => none
      | some r => some (.bool true, r)
    | 'f' :: _ =>
      match matchLit ['f', 'a', 'l', 's', 'e'] cs with
      | none => none
      | some r => some (.bool false, r)
    | 'n' :: _ =>
      match matchLit ['n', 'u', 'l', 'l'] cs with
      | none => none
      | some r => some (.null, r)
    | _ =>
      match parseJsonNumber cs with
      | none => none
      | some (q, r) => some (.num q, r)

/-- Object body after `{` and whitespace: either an immediate `}` or a
member list. -/
def parseJsonObj : Nat → List Char → Option (Json × List Char)
  | 0, _ => none
  | fuel + 1, cs =>
    match cs with
    | '\x7d' :: rest => some (.obj [], rest)
    | _ => parseJsonMembers fuel cs []

/-- Members of an object: `"key" : value` separated by commas, closed by
`}`.  Expects the next key's opening quote (whitespace already skipped). -/
def parseJsonMembers : Nat → List Char → List (String × Json) → Option (Json × List Char)
  | 0, _, _ => none
  | fuel + 1, cs, acc =>
    match cs with
    | '"' :: rest =>
      match parseJsonString (rest.length + 1) [] rest with
      | none => none
      | some (k, r1) =>
        match skipJsonWs r1 with
        | ':' :: r2 =>
          match parseJsonValue fuel r2 with
          | none => none
          | some (v, r3) =>
            match skipJsonWs r3 with
            | ',' :: r4 => parseJsonMembers fuel (skipJsonWs r4) (acc ++ [(k, v)])
            | '\x7d' :: r4 => some (.obj (acc ++ [(k, v)]), r4)
            | _ => none
        | _ => none
    | _ => none

/-- Array body after `[` and whitespace: either an immediate `]` or an
element list. -/
def parseJsonArr : Nat → List Char → Option (Json × List Char)
  | 0, _ => none
  | fuel + 1, cs =>
    match cs with
    | ']' :: rest => some (.arr [], rest)
    | _ => parseJsonElems fuel cs []

/-- Elements of an array, separated by commas, closed by `]`. -/
def parseJsonElems : Nat → List Char → List Json → Option (Json × List Char)
  | 0, _, _ => none
  | fuel + 1, cs, acc =>
    match parseJsonValue fuel cs with
    | none => none
    | some (v, r) =>
      match skipJsonWs r with
      | ',' :: r2 => parseJsonElems fuel r2 (acc ++ [v])
      | ']' :: r2 => some (.arr (acc ++ [v]), r2)
      | _ => none

end

/-- Model of `JSON.parse`: one value, with only whitespace allowed after
it; `none` models a thrown `SyntaxError`. -/
def jsonParse (raw : String) : Option Json :=
  match parseJsonValue (raw.data.length + 1) raw.data with
  | none => none
  | some (v, rest) => if skipJsonWs rest = [] then some v else none

/-- Property access on a parsed JSON value: defined only for objects (on
any other value the properties the settings code reads are `undefined`);
the last binding of a duplicated key wins, as in `JSON.parse`. -/
def getField (j : Json) (key : String) : Option Json :=
  match j with
  | .obj kvs => kvs.foldl (fun acc p => if p.1 = key then some p.2 else acc) none
  | _ => none

/-- JS truthiness of a parsed JSON value (`Boolean(v)`). -/
def jsTruthyJson : Json → Bool
  | .null => false
  | .bool b => b
  | .num q => decide (q ≠ 0)
  | .str s => decide (s ≠ "")
  | .arr _ => true
  | .obj _ => true

/-- Source `TelemetryLevel` from `core/security/privacy`. -/
inductive TelemetryLevel where
  | minimal
  | full
deriving DecidableEq, Repr

/-- Source `AppSettings` from `core/workspace/settings`. -/
structure AppSettings where
  privacyMode : Bool
  stripMetadata : Bool
  telemetryLevel : TelemetryLevel
  rememberSecrets : Bool
deriving DecidableEq, Repr

/-- Source `defaultSettings()` from the settings module. -/
def defaultSettings : AppSettings :=
  { privacyMode := false
    stripMetadata := true
    telemetryLevel := .minimal
    rememberSecrets := false }

/-- Source `Boolean(input[key] ?? dflt)` on a parsed JSON object: a missing or
`null` field falls back to the default, anything else is coerced. -/
def jsFieldBool (j : Json) (key : String) (dflt : Bool) : Bool :=
  match getField j key with
  | none => dflt
  | some .null => dflt
  | some v => jsTruthyJson v

/-- Source `normalizeTelemetryLevel` applied to a parsed JSON field: exactly the
string `'full'` maps to `full`, everything else to `minimal`. -/
def normalizeTelemetryLevelJson (v : Option Json) : TelemetryLevel :=
  match v with
  | some (.str s) => if s = "full" then .full else .minimal
  | _ => .minimal

/-- Source `normalizeSettings` applied to a parsed (non-null) JSON value. -/
def normalizeSettingsJson (j : Json) : AppSettings :=
  { privacyMode := jsFieldBool j "privacyMode" defaultSettings.privacyMode
    stripMetadata := jsFieldBool j "stripMetadata" defaultSettings.stripMetadata
    telemetryLevel := normalizeTelemetryLevelJson (getField j "telemetryLevel")
    rememberSecrets := jsFieldBool j "rememberSecrets" defaultSettings.rememberSecrets }

/-- The body of `readSettings` applied to on-disk file content: parse
failures fall back to the defaults, as does a parsed `null` (whose property
access throws inside the same `try`). -/
def readSettingsContent (raw : String) : AppSettings :=
  match jsonParse raw with
  | none => defaultSettings
  | some .null => defaultSettings
  | some j => normalizeSettingsJson j

/-- Source `normalizeSettings` applied to an already-typed `AppSettings` record
(the shape `writeSettings` receives from `readSettings`). -/
def normalizeSettingsTyped (s : AppSettings) : AppSettings :=
  { privacyMode := s.privacyMode
    stripMetadata := s.stripMetadata
    telemetryLevel := if s.telemetryLevel = .full then .full else .minimal
    rememberSecrets := s.rememberSecrets }

/-- Rendering of a boolean by `JSON.stringify`. -/
def jsonBoolString (b : Bool) : String :=
  if b then "true" else "false"

/-- The `'minimal' | 'full'` string of a telemetry level. -/
def telemetryLevelName : TelemetryLevel → String
  | .minimal => "minimal"
  | .full => "full"

/-- Source `JSON.stringify(normalized, null, 2)` for a normalized settings record:
two-space indentation, fields in the insertion order of the
`normalizeSettings` object literal. -/
def stringifySettings (s : AppSettings) : String :=
  "\x7b\n  \"privacyMode\": " ++ jsonBoolString s.privacyMode ++
  ",\n  \"stripMetadata\": " ++ jsonBoolString s.stripMetadata ++
  ",\n  \"telemetryLevel\": \"" ++ telemetryLevelName s.telemetryLevel ++
  "\",\n  \"rememberSecrets\": " ++ jsonBoolString s.rememberSecrets ++ "\n\x7d"

/-- The filesystem as a map from path to file content. -/
def FS : Type := String → Option String

/-- Source `readSettings` from the settings module: defaults when the file does
not exist, otherwise the parsed and normalized content. -/
def readSettingsFS (fs : FS) (filePath : String) : AppSettings :=
  match fs filePath with
  | none => defaultSettings
  | some raw => readSettingsContent raw

/-- Source `writeSettings` from the settings module: normalizes and overwrites the
file with the pretty-printed JSON. -/
def writeSettingsFS (fs : FS) (filePath : String) (settings : AppSettings) : FS :=
  fun q =>
    if q = filePath then some (stringifySettings (normalizeSettingsTyped settings))
    else fs q

/-- Modelled from the spec's words (§3, §4.4), for comparison with the
implementation: the last 200 non-empty trimmed lines of the combined
stdout-then-stderr text. -/
def specCombinedLogLines (stdout stderr : List String) : List String :=
  lastN 200 (((splitLines (String.join (stdout ++ stderr))).map jsTrim).filter (fun l => l ≠ ""))

/-- Helper: a `filterMap` is unchanged by first filtering out elements the
function sends to `none`. -/
theorem filterMap_eq_filterMap_filter {α β : Type _} (f : α → Option β) (p : α → Bool) :
    ∀ l : List α, (∀ a ∈ l, p a = false → f a = none) →
      l.filterMap f = (l.filter p).filterMap f := by
  intro l
  induction l with
  | nil => intro _; rfl
  | cons a t ih =>
    intro h
    have ht : ∀ a ∈ t, p a = false → f a = none := fun x hx => h x (List.mem_cons_of_mem a hx)
    cases hp : p a with
    | true => simp [List.filter_cons, hp, List.filterMap_cons, ih ht]
    | false =>
      have hfa : f a = none := h a (List.mem_cons_self a t) hp
      simp [List.filter_cons, hp, List.filterMap_cons, hfa, ih ht]

/-- Helper: over a list where `f a = none` exactly when `q a`, the surviving
`filterMap` results and the `q`-count partition the length. -/
theorem length_filterMap_add_countP {α β : Type _} (f : α → Option β) (q : α → Bool) :
    ∀ l : List α, (∀ a ∈ l, (f a = none ↔ q a = true)) →
      (l.filterMap f).length + l.countP q = l.length := by
  intro l
  induction l with
  | nil => intro _; rfl
  | cons a t ih =>
    intro h
    have ht : ∀ a ∈ t, (f a = none ↔ q a = true) := fun x hx => h x (List.mem_cons_of_mem a hx)
    have ha := h a (List.mem_cons_self a t)
    cases hq : q a with
    | true =>
      have hfa : f a = none := ha.mpr hq
      simp only [List.filterMap_cons, hfa, List.countP_cons, hq, if_pos, List.length_cons]
      have := ih ht
      omega
    | false =>
      cases hfa : f a with
      | none => exact absurd (ha.mp hfa) (by simp [hq])
      | some b =>
        simp [List.filterMap_cons, hfa, List.countP_cons, hq]
        have := ih ht
        omega

/-- C1 (counterexample): `buildCommandResult` trims whole captured chunks,
not lines.  For the captured stdout stream consisting of the single chunk
`"a\nb"`, the resulting `logs` is `["a\nb"]`: its element contains a newline
character, and it differs from the last 200 non-empty trimmed lines of the
combined stdout-then-stderr text (which are `["a", "b"]`).  This refutes the
claim as stated. -/
theorem buildCommandResult_chunk_counterexample :
    (buildCommandResult true "" ["a\nb"] []).logs = ["a\nb"] ∧
    strContains "a\nb" '\n' = true ∧
    specCombinedLogLines ["a\nb"] [] = ["a", "b"] ∧
    (buildCommandResult true "" ["a\nb"] []).logs ≠ specCombinedLogLines ["a\nb"] [] := by
  refine ⟨rfl, rfl, rfl, ?_⟩
  decide

/-- C1 (amended): for every pair of captured stdout and stderr chunk
sequences, `logs` of the `CommandResult` built from them is the last 200
(oldest discarded first) of the non-empty trimmed *chunks* of stdout
followed by stderr; it is a suffix of that trimmed-and-filtered sequence
and its length is capped at 200.  (Elements are trimmed chunks, so an
element may contain a newline when a captured chunk does.) -/
theorem buildCommandResult_logs (success : Bool) (message : String)
    (stdout stderr : List String) :
    (buildCommandResult success message stdout stderr).logs =
      lastN 200 (((stdout ++ stderr).map jsTrim).filter (fun l => l ≠ "")) ∧
    (buildCommandResult success message stdout stderr).logs <:+
      ((stdout ++ stderr).map jsTrim).filter (fun l => l ≠ "") ∧
    (buildCommandResult success message stdout stderr).logs.length =
      min 200 (((stdout ++ stderr).map jsTrim).filter (fun l => l ≠ "")).length := by
  refine ⟨rfl, List.drop_suffix _ _, ?_⟩
  show (lastN 200 (((stdout ++ stderr).map jsTrim).filter (fun l => l ≠ ""))).length = _
  unfold lastN
  rw [List.length_drop]
  omega

/-- C2 (counterexample): for the listing text `"Header\n\nPath = a.7z"` and
archive path `"a.7z"` there are B = 2 non-empty blocks, exactly one of which
has a `Path` value equal to the archive path, yet parsing yields 0 entries,
not B − 1 = 1 — the `"Header"` block has no `Path` key at all and is
silently skipped.  This refutes the claim as stated. -/
theorem parseListOutput_block_count_counterexample :
    (nonEmptyBlocks "Header\n\nPath = a.7z").length = 2 ∧
    (nonEmptyBlocks "Header\n\nPath = a.7z").countP
      (fun b => decide (blockPath b = some "a.7z")) = 1 ∧
    (parseListOutput "Header\n\nPath = a.7z" "a.7z").length = 0 := by
  decide

/-- C2 (amended): for every listing text that splits into B non-empty
blocks, if every non-empty block has a usable (present and non-empty)
`Path` value and exactly one of those values equals the archive path given
to the parser, then parsing yields exactly B − 1 entries. -/
theorem parseListOutput_block_count (raw archivePath : String)
    (hpath : ∀ b ∈ nonEmptyBlocks raw, blockPath b ≠ none ∧ blockPath b ≠ some "")
    (hone : (nonEmptyBlocks raw).countP
      (fun b => decide (blockPath b = some archivePath)) = 1) :
    (parseListOutput raw archivePath).length = (nonEmptyBlocks raw).length - 1 := by
  have hstep : parseListOutput raw archivePath =
      (nonEmptyBlocks raw).filterMap (parseBlockEntry archivePath) := by
    unfold parseListOutput nonEmptyBlocks
    refine filterMap_eq_filterMap_filter _ _ _ ?_
    intro b _ hb
    have hbt : jsTrim b = "" := by
      by_contra hc
      simp [hc] at hb
    simp [parseBlockEntry, hbt]
  have hiff : ∀ b ∈ nonEmptyBlocks raw,
      (parseBlockEntry archivePath b = none ↔
        decide (blockPath b = some archivePath) = true) := by
    intro b hb
    have hbt : jsTrim b ≠ "" := by
      have := List.of_mem_filter hb
      simpa using this
    obtain ⟨h1, h2⟩ := hpath b hb
    cases hp : blockPath b with
    | none => exact absurd hp h1
    | some v =>
      have hv : v ≠ "" := by
        intro he
        exact h2 (by rw [hp, he])
      by_cases hva : v = archivePath
      · subst hva
        simp [parseBlockEntry, hbt, hp, hv]
      · simp [parseBlockEntry, hbt, hp, hv, hva]
  have hsum := length_filterMap_add_countP (parseBlockEntry archivePath)
    (fun b => decide (blockPath b = some archivePath)) (nonEmptyBlocks raw) hiff
  rw [hone] at hsum
  rw [hstep]
  omega

/-- C2 (witness): the amended count property at a concrete two-block
listing whose blocks both carry a `Path`, one equal to the archive path. -/
theorem parseListOutput_block_count_witness :
    (parseListOutput "Path = a.7z\n\nPath = b.txt" "a.7z").length =
      (nonEmptyBlocks "Path = a.7z\n\nPath = b.txt").length - 1 :=
  parseListOutput_block_count "Path = a.7z\n\nPath = b.txt" "a.7z"
    (by decide) (by decide)

/-- Helper: a digit character's code point lies in `[48, 57]`. -/
theorem isDigit_toNat {c : Char} (h : c.isDigit = true) : 48 ≤ c.toNat ∧ c.toNat ≤ 57 := by
  simp only [Char.isDigit, Bool.and_eq_true, decide_eq_true_eq, ge_iff_le,
    UInt32.le_def, BitVec.le_def] at h
  exact h

/-- Helper: a digit is not JS whitespace. -/
theorem isJsSpace_of_isDigit {c : Char} (h : c.isDigit = true) : isJsSpace c = false := by
  obtain ⟨h1, h2⟩ := isDigit_toNat h
  simp only [isJsSpace, Bool.or_eq_false_iff, Bool.and_eq_false_iff,
    beq_eq_false_iff_ne, ne_eq, decide_eq_false_iff_not, not_le]
  omega

/-- Helper: trimming leaves an all-digit character list unchanged. -/
theorem jsTrimChars_digits (cs : List Char) (h : ∀ c ∈ cs, c.isDigit = true) :
    jsTrimChars cs = cs := by
  have hdrop : ∀ l : List Char, (∀ c ∈ l, c.isDigit = true) → l.dropWhile isJsSpace = l := by
    intro l hl
    cases l with
    | nil => rfl
    | cons c t =>
      rw [List.dropWhile_cons]
      simp [isJsSpace_of_isDigit (hl c (List.mem_cons_self c t))]
  unfold jsTrimChars
  rw [hdrop cs h, hdrop cs.reverse (fun c hc => h c (List.mem_reverse.mp hc)),
    List.reverse_reverse]

/-- Helper: an all-digit string is not a radix literal. -/
theorem jsRadixParse_digits (cs : List Char) (h : ∀ c ∈ cs, c.isDigit = true) :
    jsRadixParse cs = none := by
  have htake : ∀ c2 : Char, c2.isDigit = false → cs.take 2 ≠ ['0', c2] := by
    intro c2 hc2 he
    have hm : c2 ∈ cs.take 2 := by rw [he]; simp
    have := h c2 (List.take_subset 2 cs hm)
    rw [this] at hc2
    exact Bool.true_eq_false.mp hc2
  unfold jsRadixParse
  rw [if_neg, if_neg, if_neg]
  · rintro (he | he)
    · exact htake 'b' (by decide) he
    · exact htake 'B' (by decide) he
  · rintro (he | he)
    · exact htake 'o' (by decide) he
    · exact htake 'O' (by decide) he
  · rintro (he | he)
    · exact htake 'x' (by decide) he
    · exact htake 'X' (by decide) he

/-- Helper: `Number` on a non-empty all-digit string is its base-10 value. -/
theorem jsStringToNumber_digits (d : String) (hne : d.data ≠ [])
    (hd : ∀ c ∈ d.data, c.isDigit = true) :
    jsStringToNumber d = .num (natOfDigits d.data) := by
  have htrim : jsTrimChars d.data = d.data := jsTrimChars_digits d.data hd
  have htw : d.data.takeWhile Char.isDigit = d.data := List.takeWhile_eq_self_iff.mpr hd
  have hdw : d.data.dropWhile Char.isDigit = [] := List.dropWhile_eq_nil_iff.mpr hd
  have hsome : ∀ c2 : Char, c2.isDigit = false → d.data.take 1 ≠ [c2] := by
    intro c2 hc2 he
    have hm : c2 ∈ d.data.take 1 := by rw [he]; simp
    have := hd c2 (List.take_subset 1 d.data hm)
    rw [this] at hc2
    exact Bool.true_eq_false.mp hc2
  have hmant : parseDecMantissa d.data = some ((natOfDigits d.data : ℚ), []) := by
    unfold parseDecMantissa
    rw [htw, hdw]
    rw [if_neg (by decide)]
    rw [if_neg hne]
  have hdec : parseDecimal d.data = some (natOfDigits d.data : ℚ) := by
    simp [parseDecimal, hmant, parseExponent]
  have hinf : d.data ≠ ['I', 'n', 'f', 'i', 'n', 'i', 't', 'y'] := by
    intro he
    have hm : 'I' ∈ d.data := by rw [he]; simp
    have := hd 'I' hm
    exact absurd this (by decide)
  have hradix := jsRadixParse_digits d.data hd
  simp only [jsStringToNumber, htrim]
  rw [if_neg hne, hradix]
  simp [jsSignedDecimal, jsUnsignedDecimal, hsome '+' (by decide),
    hsome '-' (by decide), hinf, hdec]

/-- Helper: `x || 0` on an actual number is the identity. -/
theorem jsOrZero_num (q : ℚ) : jsOrZero (.num q) = .num q := by
  by_cases h : q = 0 <;> simp [jsOrZero, jsTruthy, h]

/-- C3 (counterexample): the engine reads numeric fields with the JS
`Number()` coercion, which accepts hexadecimal syntax: a block whose `Size`
value is `"0x10"` yields an entry of size 16, not the 0 the claim requires
for a value that is not a plain base-10 integer.  This refutes the claim as
stated. -/
theorem entry_size_hex_counterexample :
    (parseListOutput "Path = f\nSize = 0x10" "/tmp/a.7z").map (fun e => e.size) =
      [JsNum.num 16] ∧ JsNum.num 16 ≠ JsNum.num 0 := by
  constructor
  · rfl
  · decide

/-- C3 (amended): for every parsed block, the entry's `size` is the JS
`Number()` coercion of its `Size` value (`compressedSize` likewise of
`Packed Size`), falsy results replaced by 0.  In particular a missing key
yields 0 and a non-empty all-digit value yields its base-10 integer value;
but other `Number()` syntaxes (hexadecimal, exponent, fractional) are also
accepted, as the counterexample shows. -/
theorem entry_numeric_fields (pairs : List (String × String)) (rp : String) :
    (lookupLast pairs "Size" = none → (mkEntry pairs rp).size = .num 0) ∧
    (∀ d : String, lookupLast pairs "Size" = some d → d.data ≠ [] →
      (∀ c ∈ d.data, c.isDigit = true) →
      (mkEntry pairs rp).size = .num (natOfDigits d.data)) ∧
    (lookupLast pairs "Packed Size" = none → (mkEntry pairs rp).compressedSize = .num 0) ∧
    (∀ d : String, lookupLast pairs "Packed Size" = some d → d.data ≠ [] →
      (∀ c ∈ d.data, c.isDigit = true) →
      (mkEntry pairs rp).compressedSize = .num (natOfDigits d.data)) := by
  refine ⟨?_, ?_, ?_, ?_⟩
  · intro h
    simp [mkEntry, h, jsNumberOfField, jsOrZero, jsTruthy]
  · intro d h hne hd
    simp only [mkEntry, h, jsNumberOfField]
    rw [jsStringToNumber_digits d hne hd, jsOrZero_num]
  · intro h
    simp [mkEntry, h, jsNumberOfField, jsOrZero, jsTruthy]
  · intro d h hne hd
    simp only [mkEntry, h, jsNumberOfField]
    rw [jsStringToNumber_digits d hne hd, jsOrZero_num]

/-- C3 (witness): the amended numeric-field property at a concrete block
map: a base-10 `Size` of `"120"` gives 120, and a missing `Packed Size`
gives 0. -/
theorem entry_numeric_fields_witness :
    (mkEntry [("Path", "f"), ("Size", "120")] "f").size = .num (natOfDigits "120".data) ∧
    (mkEntry [("Path", "f"), ("Size", "120")] "f").compressedSize = .num 0 :=
  ⟨(entry_numeric_fields [("Path", "f"), ("Size", "120")] "f").2.1 "120" rfl
      (by decide) (by decide),
    (entry_numeric_fields [("Path", "f"), ("Size", "120")] "f").2.2.1 rfl⟩

/-- Helper: reading back a canonically serialized settings record recovers
it exactly (checked over all sixteen settings records). -/
theorem readSettingsContent_stringify (s : AppSettings) :
    readSettingsContent (stringifySettings s) = s := by
  obtain ⟨pm, sm, tl, rs⟩ := s
  cases pm <;> cases sm <;> cases tl <;> cases rs <;> rfl

/-- Helper: normalization of an already-typed settings record is the
identity. -/
theorem normalizeSettingsTyped_id (s : AppSettings) : normalizeSettingsTyped s = s := by
  obtain ⟨pm, sm, tl, rs⟩ := s
  cases tl <;> rfl

/-- A filesystem whose settings file holds the two-character text
`"\x7b\x7d"` (an empty JSON object). -/
def fsEmptyObject : FS :=
  fun q => if q = "/data/settings.json" then some "\x7b\x7d" else none

/-- C4 (counterexample): write-after-read is not a fixed point for every
settings file.  For a file containing the empty JSON object, reading yields
the defaults and writing them back replaces the two-character content with
the pretty-printed default settings JSON, changing the on-disk content.
This refutes the claim as stated. -/
theorem settings_roundtrip_counterexample :
    fsEmptyObject "/data/settings.json" = some "\x7b\x7d" ∧
    writeSettingsFS fsEmptyObject "/data/settings.json"
        (readSettingsFS fsEmptyObject "/data/settings.json") "/data/settings.json" =
      some (stringifySettings defaultSettings) ∧
    writeSettingsFS fsEmptyObject "/data/settings.json"
        (readSettingsFS fsEmptyObject "/data/settings.json") "/data/settings.json" ≠
      fsEmptyObject "/data/settings.json" := by
  refine ⟨rfl, rfl, ?_⟩
  decide

/-- C4 (amended): write-after-read is a fixed point on every settings file
whose current content was itself produced by `writeSettings` (the
pretty-printed serialization of some settings record): for such a path,
`writeSettings(path, readSettings(path))` leaves the whole filesystem, and
in particular that file's content, unchanged. -/
theorem settings_roundtrip_fixed_point (fs : FS) (p : String) (s0 : AppSettings)
    (h : fs p = some (stringifySettings s0)) (q : String) :
    writeSettingsFS fs p (readSettingsFS fs p) q = fs q := by
  have hread : readSettingsFS fs p = s0 := by
    unfold readSettingsFS
    rw [h]
    exact readSettingsContent_stringify s0
  unfold writeSettingsFS
  by_cases hq : q = p
  · rw [if_pos hq, hread, normalizeSettingsTyped_id, hq, h]
  · rw [if_neg hq]

/-- A filesystem whose settings file holds a canonical serialized settings
record. -/
def fsCanonical : FS :=
  fun q => if q = "/data/settings.json" then some (stringifySettings defaultSettings) else none

/-- C4 (witness): the amended fixed-point property at a concrete filesystem
holding a canonically written settings file. -/
theorem settings_roundtrip_fixed_point_witness :
    writeSettingsFS fsCanonical "/data/settings.json"
        (readSettingsFS fsCanonical "/data/settings.json") "/data/settings.json" =
      fsCanonical "/data/settings.json" :=
  settings_roundtrip_fixed_point fsCanonical "/data/settings.json" defaultSettings
    rfl "/data/settings.json"

/-- The listing text of spec scenario B. -/
def scenarioBText : String :=
  "Path = docs/readme.txt\nSize = 120\nPacked Size = 64\nFolder = ....A\n"

/-- The single entry scenario B promises. -/
def scenarioBEntry : ArchiveEntry :=
  { id := "docs/readme.txt"
    path := "docs/readme.txt"
    name := "readme.txt"
    size := .num 120
    compressedSize := .num 64
    modified := ""
    isDirectory := false }

/-- C5: parsing scenario B's listing text (whose sole block is not the
archive's own preamble, i.e. the archive path differs from the entry path)
yields exactly the promised entry, with path `docs/readme.txt`, name
`readme.txt`, size 120, compressedSize 64 and isDirectory false; and in
general an entry's `isDirectory` is true iff the block's `Folder` value
contains the folder marker character `'+'` anywhere in the string. -/
theorem parse_scenarioB (ap : String) (hap : ap ≠ "docs/readme.txt") :
    parseListOutput scenarioBText ap = [scenarioBEntry] ∧
    ∀ (pairs : List (String × String)) (rp : String),
      ((mkEntry pairs rp).isDirectory = true ↔
        strContains ((lookupLast pairs "Folder").getD "") '+' = true) := by
  constructor
  · have hblocks : splitBlocks scenarioBText = [scenarioBText] := rfl
    have hbp : blockPath scenarioBText = some "docs/readme.txt" := rfl
    have hentry : parseBlockEntry ap scenarioBText = some scenarioBEntry := by
      simp only [parseBlockEntry, hbp]
      rw [if_neg (by decide), if_neg ?_]
      · decide
      · rintro (h | h)
        · exact absurd h (by decide)
        · exact hap h.symm
    unfold parseListOutput
    rw [hblocks]
    simp [List.filterMap_cons, hentry]
  · intro pairs rp
    exact Iff.rfl

/-- C5 (witness): scenario B at the concrete archive path `/tmp/a.7z`, and
the `isDirectory` marker equivalence evaluated at scenario B's block (whose
`Folder` value `....A` has no `'+'`). -/
theorem parse_scenarioB_witness :
    parseListOutput scenarioBText "/tmp/a.7z" = [scenarioBEntry] :=
  (parse_scenarioB "/tmp/a.7z" (by decide)).1

/-- C6: for every add payload whose file list is empty and every delete
payload whose entry list is empty, the operation fails with the respective
invalid-input error message, and its event trace is empty — in particular
no subprocess spawn (and no other side effect) happens. -/
theorem empty_payload_rejected (ctx : EngineCtx) (pa : AddToArchivePayload)
    (pd : DeleteEntriesPayload) (ha : pa.files = []) (hd : pd.entries = []) :
    addFilesToArchive ctx pa = (.error "No files selected to add", []) ∧
    deleteArchiveEntries ctx pd = (.error "No entries selected for deletion", []) := by
  constructor
  · simp [addFilesToArchive, ha]
  · simp [deleteArchiveEntries, hd]

/-- An engine environment for the witnesses: identity resolution, every
path exists, and a subprocess that exits 0 silently. -/
def ctxOk : EngineCtx :=
  { resolve := id
    pathExists := fun _ => true
    runner := fun _ => { code := 0, stdout := [], stderr := [] }
    tempDir := "/tmp/fz" }

/-- C6 (witness): the empty-payload rejection at concrete empty payloads. -/
theorem empty_payload_rejected_witness :
    addFilesToArchive ctxOk ⟨"a.7z", [], none, none⟩ =
      (.error "No files selected to add", []) ∧
    deleteArchiveEntries ctxOk ⟨"a.7z", []⟩ =
      (.error "No entries selected for deletion", []) :=
  empty_payload_rejected ctxOk _ _ rfl rfl

/-- C7: for every environment and archive path that passes the existence
check, `testArchiveIntegrity` returns (never throws) a result whose success
flag is exit code = 0 and whose message is "Archive passed integrity test"
exactly when the exit code is 0 and "Archive failed integrity test"
otherwise — a function of the exit code alone, with the stderr chunks
feeding only the logs; the trace is the existence check followed by the
single spawn. -/
theorem test_message_from_exit_code (ctx : EngineCtx) (ap : String)
    (h : ctx.pathExists (ctx.resolve ap) = true) :
    testArchiveIntegrity ctx ap =
      (.ok (buildCommandResult ((ctx.runner ["-sccUTF-8", "t", ctx.resolve ap]).code == 0)
        (if (ctx.runner ["-sccUTF-8", "t", ctx.resolve ap]).code == 0
          then "Archive passed integrity test" else "Archive failed integrity test")
        (ctx.runner ["-sccUTF-8", "t", ctx.resolve ap]).stdout
        (ctx.runner ["-sccUTF-8", "t", ctx.resolve ap]).stderr),
      [.existsCheck (ctx.resolve ap), .spawn ["-sccUTF-8", "t", ctx.resolve ap]]) := by
  simp [testArchiveIntegrity, run7zip, h]

/-- An engine environment whose subprocess exits with code 2 and writes to
stderr. -/
def ctxExit2 : EngineCtx :=
  { resolve := id
    pathExists := fun _ => true
    runner := fun _ => { code := 2, stdout := [], stderr := ["err"] }
    tempDir := "/tmp/fz" }

/-- C7 (witness): testing `corrupt.7z` under a subprocess exiting with code
2 yields success false and the message "Archive failed integrity test"
(with stderr feeding only the logs). -/
theorem test_message_from_exit_code_witness :
    testArchiveIntegrity ctxExit2 "corrupt.7z" =
      (.ok { success := false, message := "Archive failed integrity test", logs := ["err"] },
       [.existsCheck "corrupt.7z", .spawn ["-sccUTF-8", "t", "corrupt.7z"]]) :=
  (test_message_from_exit_code ctxExit2 "corrupt.7z" rfl).trans rfl

/-- C8: format resolution maps the extension `.zip` to zip, `.7z` to 7z,
and `.tar` / `.gz` / `.tgz` to tar; any path whose processed extension is
none of the recognized names resolves to the default format, which is 7z;
and an explicit `format` field in an add payload overrides the
extension-inferred format — the `-t` flag the engine spawns with carries
that field's format. -/
theorem format_resolution :
    (∀ p : String, extname p = ".zip" → formatFromArchivePath p = .zip) ∧
    (∀ p : String, extname p = ".7z" → formatFromArchivePath p = .sevenZ) ∧
    (∀ p : String, extname p = ".tar" → formatFromArchivePath p = .tar) ∧
    (∀ p : String, extname p = ".gz" → formatFromArchivePath p = .tar) ∧
    (∀ p : String, extname p = ".tgz" → formatFromArchivePath p = .tar) ∧
    (∀ p : String, extCandidate p ∉ (["zip", "7z", "tar", "gz", "tgz"] : List String) →
      formatFromArchivePath p = DEFAULT_FORMAT ∧ DEFAULT_FORMAT = .sevenZ) ∧
    (∀ (ctx : EngineCtx) (payload : AddToArchivePayload) (f : CompressionFormat),
      payload.format = some f → payload.files ≠ [] →
      ("-t" ++ formatName f) ∈
        addArgs payload (ctx.resolve payload.archivePath) (payload.files.map ctx.resolve) ∧
      (addFilesToArchive ctx payload).2 =
        [.spawn ("-sccUTF-8" ::
          addArgs payload (ctx.resolve payload.archivePath) (payload.files.map ctx.resolve))]) := by
  have hext : ∀ (p : String) (e : String), extname p = e →
      extCandidate p = ⟨toLowerChars (removeFirstDot e.data)⟩ := by
    intro p e he
    unfold extCandidate
    rw [he]
  refine ⟨?_, ?_, ?_, ?_, ?_, ?_, ?_⟩
  · intro p h
    unfold formatFromArchivePath
    rw [hext p ".zip" h]
    decide
  · intro p h
    unfold formatFromArchivePath
    rw [hext p ".7z" h]
    decide
  · intro p h
    unfold formatFromArchivePath
    rw [hext p ".tar" h]
    decide
  · intro p h
    unfold formatFromArchivePath
    rw [hext p ".gz" h]
    decide
  · intro p h
    unfold formatFromArchivePath
    rw [hext p ".tgz" h]
    decide
  · intro p h
    simp only [List.mem_cons, List.not_mem_nil, or_false, not_or] at h
    obtain ⟨h1, h2, h3, h4, h5⟩ := h
    refine ⟨?_, rfl⟩
    unfold formatFromArchivePath
    rw [if_neg h1, if_neg h2, if_neg h3, if_neg h4, if_neg h5]
  · intro ctx payload f hf hne
    have hmem : ("-t" ++ formatName f) ∈
        addArgs payload (ctx.resolve payload.archivePath) (payload.files.map ctx.resolve) := by
      unfold addArgs
      rw [hf]
      cases payload.compressionLevel with
      | none => simp
      | some level =>
        by_cases hl : level = 0 <;> simp [hl]
    refine ⟨hmem, ?_⟩
    have hfiles : payload.files.map ctx.resolve ≠ [] := by
      intro he
      exact hne (List.map_eq_nil_iff.mp he)
    simp only [addFilesToArchive, run7zip]
    rw [if_neg hfiles]
    by_cases hc : (ctx.runner ("-sccUTF-8" ::
        addArgs payload (ctx.resolve payload.archivePath)
          (payload.files.map ctx.resolve))).code ≠ 0 <;>
      simp [hc]

/-- C8 (witness): the format map, the default fallback and the explicit
override at concrete paths and a concrete payload (an archive named `a.7z`
whose payload forces the zip format). -/
theorem format_resolution_witness :
    formatFromArchivePath "a.zip" = .zip ∧
    formatFromArchivePath "b.7z" = .sevenZ ∧
    formatFromArchivePath "c.tar" = .tar ∧
    formatFromArchivePath "d.gz" = .tar ∧
    formatFromArchivePath "e.tgz" = .tar ∧
    formatFromArchivePath "f.txt" = DEFAULT_FORMAT ∧
    ("-t" ++ formatName .zip) ∈
      addArgs ⟨"a.7z", ["f1"], some .zip, none⟩ "a.7z" ["f1"] :=
  ⟨format_resolution.1 "a.zip" rfl,
    format_resolution.2.1 "b.7z" rfl,
    format_resolution.2.2.1 "c.tar" rfl,
    format_resolution.2.2.2.1 "d.gz" rfl,
    format_resolution.2.2.2.2.1 "e.tgz" rfl,
    (format_resolution.2.2.2.2.2.1 "f.txt" (by decide)).1,
    (format_resolution.2.2.2.2.2.2 ctxOk ⟨"a.7z", ["f1"], some .zip, none⟩ .zip rfl
      (by decide)).1⟩

/-- The final argument vector `deleteArchiveEntries` spawns with. -/
def deleteFinalArgs (ctx : EngineCtx) (pd : DeleteEntriesPayload) : List String :=
  "-sccUTF-8" :: "d" :: ctx.resolve pd.archivePath :: pd.entries.map normalizeEntryPath

/-- The final argument vector `previewArchiveEntry` spawns with. -/
def previewFinalArgs (ctx : EngineCtx) (pp : PreviewArchivePayload) : List String :=
  ["-sccUTF-8", "x", ctx.resolve pp.archivePath, normalizeEntryPath pp.entryPath,
    "-o" ++ ctx.tempDir, "-y"]

/-- C9: `deleteArchiveEntries` (with non-empty entries) and
`previewArchiveEntry` perform no existence pre-check: their traces are
exactly a spawn (for preview: the temp-directory creation followed by the
spawn), with no `existsCheck` event, for every environment — in particular
even when the archive path does not exist; on a non-zero exit their error
is the message built from stderr (or the operation's fallback), never the
"Archive not found at" form, which only the existence pre-check produces.
By contrast `listArchiveEntries`, `extractArchiveEntries` and
`testArchiveIntegrity` with a non-existing archive stop at the existence
check: their trace is exactly the `existsCheck` event — no spawn — and
their outcome is the NotFound error. -/
theorem delete_preview_no_precheck (ctx : EngineCtx) (pd : DeleteEntriesPayload)
    (pp : PreviewArchivePayload) (pe : ExtractArchivePayload) (ap : String)
    (hde : pd.entries ≠ []) :
    (deleteArchiveEntries ctx pd).2 = [.spawn (deleteFinalArgs ctx pd)] ∧
    (previewArchiveEntry ctx pp).2 = [.makeTempDir, .spawn (previewFinalArgs ctx pp)] ∧
    ((ctx.runner (deleteFinalArgs ctx pd)).code ≠ 0 →
      (deleteArchiveEntries ctx pd).1 =
        .error (stderrMessage (ctx.runner (deleteFinalArgs ctx pd)).stderr
          "Unable to delete selected entries")) ∧
    ((ctx.runner (previewFinalArgs ctx pp)).code ≠ 0 →
      (previewArchiveEntry ctx pp).1 =
        .error (stderrMessage (ctx.runner (previewFinalArgs ctx pp)).stderr
          "Unable to extract preview")) ∧
    (ctx.pathExists (ctx.resolve ap) = false →
      listArchiveEntries ctx ap =
        (.error ("Archive not found at " ++ ctx.resolve ap),
          [.existsCheck (ctx.resolve ap)]) ∧
      testArchiveIntegrity ctx ap =
        (.error ("Archive not found at " ++ ctx.resolve ap),
          [.existsCheck (ctx.resolve ap)])) ∧
    (ctx.pathExists (ctx.resolve pe.archivePath) = false →
      extractArchiveEntries ctx pe =
        (.error ("Archive not found at " ++ ctx.resolve pe.archivePath),
          [.existsCheck (ctx.resolve pe.archivePath)])) := by
  refine ⟨?_, ?_, ?_, ?_, ?_, ?_⟩
  · unfold deleteFinalArgs
    simp only [deleteArchiveEntries, run7zip]
    rw [if_neg hde]
    split <;> rfl
  · unfold previewFinalArgs
    simp only [previewArchiveEntry, run7zip]
    split <;> rfl
  · intro hc
    unfold deleteFinalArgs at hc
    unfold deleteFinalArgs
    simp only [deleteArchiveEntries, run7zip, List.cons_append, List.nil_append]
    rw [if_neg hde, if_pos hc]
  · intro hc
    unfold previewFinalArgs at hc
    unfold previewFinalArgs
    simp only [previewArchiveEntry, run7zip]
    rw [if_pos hc]
  · intro hx
    constructor
    · simp [listArchiveEntries, hx]
    · simp [testArchiveIntegrity, hx]
  · intro hx
    simp [extractArchiveEntries, hx]

/-- An engine environment in which no path exists and the subprocess fails
with exit code 2 writing `boom` to stderr. -/
def ctxMissing : EngineCtx :=
  { resolve := id
    pathExists := fun _ => false
    runner := fun _ => { code := 2, stdout := [], stderr := ["boom"] }
    tempDir := "/tmp/pv" }

/-- C9 (witness): with a non-existing archive, delete still spawns and
surfaces the stderr text as its error, while list stops at the existence
check with the NotFound error and never spawns. -/
theorem delete_preview_no_precheck_witness :
    (deleteArchiveEntries ctxMissing ⟨"gone.7z", ["x.txt"]⟩).2 =
      [.spawn ["-sccUTF-8", "d", "gone.7z", "x.txt"]] ∧
    (deleteArchiveEntries ctxMissing ⟨"gone.7z", ["x.txt"]⟩).1 = .error "boom" ∧
    (previewArchiveEntry ctxMissing ⟨"gone.7z", "x.txt"⟩).2 =
      [.makeTempDir, .spawn ["-sccUTF-8", "x", "gone.7z", "x.txt", "-o/tmp/pv", "-y"]] ∧
    listArchiveEntries ctxMissing "gone.7z" =
      (.error "Archive not found at gone.7z", [.existsCheck "gone.7z"]) := by
  have h := delete_preview_no_precheck ctxMissing ⟨"gone.7z", ["x.txt"]⟩
    ⟨"gone.7z", "x.txt"⟩ ⟨"gone.7z", "/out", none, none⟩ "gone.7z" (by decide)
  exact ⟨h.1.trans rfl, (h.2.2.1 (by decide)).trans rfl,
    h.2.1.trans rfl, (h.2.2.2.2.1 rfl).1.trans rfl⟩

/-- C10: an extract payload whose `entries` field is present but empty
behaves exactly as if `entries` were omitted: the whole call produces the
same outcome and trace as with `entries := none`, the built argument
vector carries no entry path, and on a successful exit the message is
"Extracted entire archive to <destination>" (never "Extracted 0 item(s)
..."). -/
theorem extract_empty_entries (ctx : EngineCtx) (pe : ExtractArchivePayload)
    (he : pe.entries = some []) :
    extractArchiveEntries ctx pe =
      extractArchiveEntries ctx { pe with entries := none } ∧
    extractArgs pe (ctx.resolve pe.archivePath) (ctx.resolve pe.destination) =
      ["x", ctx.resolve pe.archivePath, "-o" ++ ctx.resolve pe.destination, "-y"] ∧
    (ctx.pathExists (ctx.resolve pe.archivePath) = true →
      (ctx.runner ["-sccUTF-8", "x", ctx.resolve pe.archivePath,
        "-o" ++ ctx.resolve pe.destination, "-y"]).code = 0 →
      (extractArchiveEntries ctx pe).1 =
        .ok (buildCommandResult true
          ("Extracted entire archive to " ++ ctx.resolve pe.destination)
          (ctx.runner ["-sccUTF-8", "x", ctx.resolve pe.archivePath,
            "-o" ++ ctx.resolve pe.destination, "-y"]).stdout
          (ctx.runner ["-sccUTF-8", "x", ctx.resolve pe.archivePath,
            "-o" ++ ctx.resolve pe.destination, "-y"]).stderr)) := by
  have hargs : ∀ a d : String, extractArgs pe a d = ["x", a, "-o" ++ d, "-y"] := by
    intro a d
    simp [extractArgs, he]
  have hlabel : extractLabel pe = "Extracted entire archive" := by
    simp [extractLabel, he]
  refine ⟨?_, hargs _ _, ?_⟩
  · unfold extractArchiveEntries
    have hargs2 : extractArgs { pe with entries := none }
        (ctx.resolve pe.archivePath) (ctx.resolve pe.destination) =
        ["x", ctx.resolve pe.archivePath, "-o" ++ ctx.resolve pe.destination, "-y"] := by
      simp [extractArgs]
    have hlabel2 : extractLabel { pe with entries := none } = "Extracted entire archive" := by
      simp [extractLabel]
    simp only [hargs, hargs2, hlabel, hlabel2]
  · intro hx hc
    simp only [extractArchiveEntries, run7zip, hargs, hlabel, hx]
    simp [hc]

/-- C10 (witness): the equivalence and the success message at a concrete
payload with `entries = some []` under the all-zero-exit environment. -/
theorem extract_empty_entries_witness :
    extractArchiveEntries ctxOk ⟨"a.7z", "/out", some [], none⟩ =
      extractArchiveEntries ctxOk ⟨"a.7z", "/out", none, none⟩ ∧
    (extractArchiveEntries ctxOk ⟨"a.7z", "/out", some [], none⟩).1 =
      .ok { success := true, message := "Extracted entire archive to /out", logs := [] } := by
  have h := extract_empty_entries ctxOk ⟨"a.7z", "/out", some [], none⟩ rfl
  exact ⟨h.1, (h.2.2 rfl rfl).trans rfl⟩

end ForgeZip
